import Mathlib

/-- Typed document identifiers: a collection declares its identifier type as
either a string or a number (`IdType`), and a concrete identifier (`DocID`)
is one or the other. -/
inductive IdType : Type where
  | str : IdType
  | num : IdType
deriving DecidableEq, Repr

/-- A concrete document identifier: string-typed or number-typed. -/
inductive DocID : Type where
  | str (s : String) : DocID
  | num (n : Int) : DocID
deriving DecidableEq, Repr

/-- Field values of a document: scalars (string, number, boolean), a raw
relationship identifier (`ref`), or a populated sub-document (`doc`, carrying
the sub-document's collection, identifier and fields). Stored documents only
carry `ref` values in relationship fields; `doc` values appear in the derived
tree produced by population. -/
inductive Value : Type where
  | str (s : String) : Value
  | num (n : Int) : Value
  | boolV (b : Bool) : Value
  | ref (i : DocID) : Value
  | doc (collection : String) (id : DocID) (fields : List (String × Value)) : Value

/-- A document: a collection name, a typed identifier and a mapping from
field name to value. -/
structure Document : Type where
  collection : String
  id : DocID
  fields : List (String × Value)

/-- A filter predicate over documents of a target collection. -/
abbrev DocFilter : Type := Document → Bool

/-- The requesting identity: `none` is anonymous, `some u` an authenticated
principal. -/
abbrev Identity : Type := Option String

/-- Result of an access-rule function: either a plain boolean or a Where
filter object (embedded from `boolean | Where` in src/src/auth/types.ts). -/
inductive AccessResult : Type where
  | boolean (b : Bool) : AccessResult
  | whereFilter (w : DocFilter) : AccessResult

/-- JavaScript truthiness of a `boolean | Where` value: `false` is falsy,
`true` is truthy, and any object is truthy. -/
def jsTruthy : AccessResult → Bool
  | AccessResult.boolean b => b
  | AccessResult.whereFilter _ => true

/-- Whether `typeof result === 'object'` holds for a `boolean | Where`
value: booleans have typeof 'boolean', Where values are objects. -/
def jsTypeofObject : AccessResult → Bool
  | AccessResult.boolean _ => false
  | AccessResult.whereFilter _ => true

/-- Embedded from src/src/auth/types.ts lines 112-114:
`return result && typeof result === 'object';`. -/
def hasWhereAccessResult (result : AccessResult) : Bool :=
  jsTruthy result && jsTypeofObject result

/-- Configuration of one relationship field: the target collection and an
optional field-level maximum depth. -/
structure RelCfg : Type where
  relationTo : String
  maxDepth : Option Nat

/-- Configuration of one collection: its slug, declared identifier type,
optional read-access rule (none means no access restriction configured) and
its declared relationship fields. -/
structure CollectionCfg : Type where
  slug : String
  idType : IdType
  access : Option (Identity → AccessResult)
  relFields : List (String × RelCfg)

/-- The collection-configuration provider: a list of collection configs. -/
abbrev Config : Type := List CollectionCfg

/-- The storage layer: the list of stored documents. -/
abbrev Store : Type := List Document

/-- Look up a collection configuration by slug. -/
def findColl (cfg : Config) (coll : String) : Option CollectionCfg :=
  cfg.find? (fun c => c.slug == coll)

/-- Look up the relationship configuration declared for field `fname` of
collection `coll`. -/
def relCfgOf (cfg : Config) (coll fname : String) : Option RelCfg :=
  (findColl cfg coll).bind
    (fun c => (c.relFields.find? (fun p => p.1 == fname)).map Prod.snd)

/-- The declared identifier type of a collection. -/
def idTypeOf (cfg : Config) (coll : String) : Option IdType :=
  (findColl cfg coll).map CollectionCfg.idType

/-- Read a field's value off a document (first field with that name). -/
def getField (d : Document) (fname : String) : Option Value :=
  (d.fields.find? (fun fv => fv.1 == fname)).map Prod.snd

/-- View a document as a populated field value. -/
def docValue (d : Document) : Value :=
  Value.doc d.collection d.id d.fields

/-- An access decision: a boolean plus an optional filter predicate over
documents of the target collection. -/
structure AccessDecision : Type where
  permitted : Bool
  filter : Option DocFilter

/-- Modelled from the spec: the Access Evaluator
`evaluate(identity, collection, "read") -> AccessDecision` of a populate
engine whose implementation is not under src/ (only its integration tests
are). A collection with no access restriction configured yields an
unconditional true; a boolean rule result becomes the decision's boolean;
a Where rule result becomes a true decision carrying the filter. -/
def evaluate (cfg : Config) (ident : Identity) (coll : String) : AccessDecision :=
  match findColl cfg coll with
  | none => ⟨true, none⟩
  | some c =>
    match c.access with
    | none => ⟨true, none⟩
    | some rule =>
      match rule ident with
      | AccessResult.boolean b => ⟨b, none⟩
      | AccessResult.whereFilter w => ⟨true, some w⟩

/-- Apply an optional filter to a candidate document. -/
def applyFilter (flt : Option DocFilter) (d : Document) : Bool :=
  match flt with
  | none => true
  | some f => f d

/-- Modelled from the spec: the storage fetch
`fetchByID(collection, id, filter?) -> Document | NotFound` of the populate
engine missing from src/. The filter is applied as a precondition of the
lookup, not as a post-hoc check. -/
def fetchByID (store : Store) (coll : String) (i : DocID) (flt : Option DocFilter) :
    Option Document :=
  store.find? (fun d => d.collection == coll && d.id == i && applyFilter flt d)

/-- Modelled from the spec: the Reference Resolver
`resolve(collection, id, identity) -> Document | Unresolved` of the populate
engine missing from src/. If the access decision is false it returns
`none` (Unresolved) without fetching; otherwise it fetches with the
decision's filter applied as a precondition of the lookup. -/
def resolve (cfg : Config) (store : Store) (coll : String) (i : DocID) (ident : Identity) :
    Option Document :=
  if (evaluate cfg ident coll).permitted
  then fetchByID store coll i (evaluate cfg ident coll).filter
  else none

/-- Number of storage fetches attempted by one `resolve` call: one when the
access decision permits (the fetch runs), zero when it denies. -/
def resolveFetches (cfg : Config) (ident : Identity) (coll : String) : Nat :=
  if (evaluate cfg ident coll).permitted then 1 else 0

/-- Effective depth of a relationship field: the request depth, capped by
the field-level maximum when one is declared. -/
def effectiveDepth (requestDepth : Nat) (maxDepth : Option Nat) : Nat :=
  match maxDepth with
  | none => requestDepth
  | some m => min requestDepth m

/-- Modelled from the spec: fuel-indexed core of the Depth-Bounded Populator
`populate(document, requestDepth, identity) -> Document`, whose
implementation is missing from src/ (only its integration tests are under
src/src/auth/types.ts). The first `Nat` is structural fuel, always kept at
least as large as the second `Nat`, the request depth. Depth 0 returns the
document with every relationship field left as its raw identifier; at
positive depth every field is mapped: non-relationship values are copied
verbatim, and a relationship field whose effective depth is positive is
resolved and, on success, recursively populated at effective depth minus
one. -/
def populateF (cfg : Config) (store : Store) (ident : Identity) :
    Nat → Nat → Document → Document
  | 0, _, d => d
  | fuel+1, depth, d =>
    if depth = 0 then d
    else
      { d with fields := d.fields.map (fun fv =>
          match fv.2 with
          | Value.ref i =>
            match relCfgOf cfg d.collection fv.1 with
            | none => fv
            | some rc =>
              if effectiveDepth depth rc.maxDepth = 0 then fv
              else
                match resolve cfg store rc.relationTo i ident with
                | none => fv
                | some d2 =>
                  (fv.1, docValue (populateF cfg store ident fuel
                    (effectiveDepth depth rc.maxDepth - 1) d2))
          | _ => fv) }

/-- Modelled from the spec: the Depth-Bounded Populator
`populate(document, requestDepth, identity) -> Document`, missing from
src/; the fuel of `populateF` is initialised to the request depth. -/
def populate (cfg : Config) (store : Store) (ident : Identity)
    (d : Document) (depth : Nat) : Document :=
  populateF cfg store ident depth depth d

/-- Modelled from the spec: fetch-counting mirror of `populateF`, returning
the number of storage fetches the populate run attempts. -/
def populateFetchesF (cfg : Config) (store : Store) (ident : Identity) :
    Nat → Nat → Document → Nat
  | 0, _, _ => 0
  | fuel+1, depth, d =>
    if depth = 0 then 0
    else (d.fields.map (fun fv =>
        match fv.2 with
        | Value.ref i =>
          match relCfgOf cfg d.collection fv.1 with
          | none => 0
          | some rc =>
            if effectiveDepth depth rc.maxDepth = 0 then 0
            else resolveFetches cfg ident rc.relationTo +
              (match resolve cfg store rc.relationTo i ident with
               | none => 0
               | some d2 =>
                 populateFetchesF cfg store ident fuel
                   (effectiveDepth depth rc.maxDepth - 1) d2)
        | _ => 0)).sum

/-- Number of storage fetches attempted by `populate` on the same inputs. -/
def populateFetches (cfg : Config) (store : Store) (ident : Identity)
    (d : Document) (depth : Nat) : Nat :=
  populateFetchesF cfg store ident depth depth d

/-- The per-field transformation performed by `populate` at a given request
depth: the value of field `fname` of a document of collection `coll`. -/
def popFieldVal (cfg : Config) (store : Store) (ident : Identity)
    (coll fname : String) (depth : Nat) (v : Value) : Value :=
  match v with
  | Value.ref i =>
    match relCfgOf cfg coll fname with
    | none => v
    | some rc =>
      if effectiveDepth depth rc.maxDepth = 0 then v
      else
        match resolve cfg store rc.relationTo i ident with
        | none => v
        | some d2 =>
          docValue (populate cfg store ident d2 (effectiveDepth depth rc.maxDepth - 1))
  | _ => v

/-- Population of a single reference into collection `C` at a given
effective depth: depth 0 keeps the raw identifier; positive depth resolves
and populates the resolved document one level shallower. -/
def popRefAt (cfg : Config) (store : Store) (ident : Identity)
    (targetColl : String) (i : DocID) : Nat → Value
  | 0 => Value.ref i
  | e+1 =>
    match resolve cfg store targetColl i ident with
    | none => Value.ref i
    | some d2 => docValue (populate cfg store ident d2 e)

/-- Descend through populated sub-documents along a path of field names. -/
def nestedAt : Document → List String → Option Document
  | d, [] => some d
  | d, f :: rest =>
    match getField d f with
    | some (Value.doc c j fs) => nestedAt ⟨c, j, fs⟩ rest
    | _ => none

/-- A resolved chain out of a document: each step names a relationship field
without a field-level maximum whose stored reference resolves (access
permitting) to the next document of the chain. -/
def resolvedChain (cfg : Config) (store : Store) (ident : Identity) :
    Document → List (String × Document) → Prop
  | _, [] => True
  | d, (f, d2) :: rest =>
    (∃ i targetColl, getField d f = some (Value.ref i) ∧
      relCfgOf cfg d.collection f = some ⟨targetColl, none⟩ ∧
      resolve cfg store targetColl i ident = some d2) ∧
    resolvedChain cfg store ident d2 rest

/-- The final document of a chain (the chain's start when it is empty). -/
def lastDoc : Document → List (String × Document) → Document
  | d, [] => d
  | _, (_, d2) :: rest => lastDoc d2 rest

/-- Filter used by the example configuration: a relation document may be
disclosed only while its `disableRelation` field is not `true`. -/
def relationFilter : DocFilter := fun d =>
  match getField d "disableRelation" with
  | some (Value.boolV true) => false
  | _ => true

/-- Relationship fields declared on the example `posts` collection,
mirroring the fields exercised by the integration tests in
src/src/auth/types.ts. -/
def postsRelFields : List (String × RelCfg) :=
  [("relationField", ⟨"relation", none⟩),
   ("maxDepthRelation", ⟨"relation", some 0⟩),
   ("chainedRelation", ⟨"chained", none⟩),
   ("defaultAccessRelation", ⟨"strict-access", none⟩),
   ("filteredRelation", ⟨"filtered-relation", none⟩),
   ("customIdNumberRelation", ⟨"custom-id-number", none⟩)]

/-- Example configuration mirroring the collections of the integration
tests: an unrestricted `relation` collection, a self-referencing `chained`
collection, a `strict-access` collection readable only by authenticated
identities, a filter-guarded collection and a numeric-id collection. -/
def cfgEx : Config :=
  [⟨"posts", IdType.str, none, postsRelFields⟩,
   ⟨"relation", IdType.str, none, []⟩,
   ⟨"chained", IdType.str, none, [("relation", ⟨"chained", none⟩)]⟩,
   ⟨"strict-access", IdType.str, some (fun ident => AccessResult.boolean ident.isSome), []⟩,
   ⟨"filtered-relation", IdType.str, some (fun _ => AccessResult.whereFilter relationFilter), []⟩,
   ⟨"custom-id-number", IdType.num, none, []⟩]

/-- Example relation document. -/
def relDoc : Document := ⟨"relation", DocID.str "rel1", [("name", Value.str "name")]⟩

/-- Example strict-access relation document. -/
def strictDoc : Document :=
  ⟨"strict-access", DocID.str "sa1", [("name", Value.str "default access")]⟩

/-- Example chained relation documents: c1 → c2 → c3 → c1 (a cycle). -/
def chained1Doc : Document :=
  ⟨"chained", DocID.str "c1",
    [("name", Value.str "chain1"), ("relation", Value.ref (DocID.str "c2"))]⟩

/-- Second document of the example chain. -/
def chained2Doc : Document :=
  ⟨"chained", DocID.str "c2",
    [("name", Value.str "chain2"), ("relation", Value.ref (DocID.str "c3"))]⟩

/-- Third document of the example chain, pointing back to the first. -/
def chained3Doc : Document :=
  ⟨"chained", DocID.str "c3",
    [("name", Value.str "chain3"), ("relation", Value.ref (DocID.str "c1"))]⟩

/-- Example filter-guarded document while it still satisfies the filter. -/
def filteredDocOk : Document :=
  ⟨"filtered-relation", DocID.str "f1",
    [("name", Value.str "name"), ("disableRelation", Value.boolV false)]⟩

/-- The same filter-guarded document after the external mutation that sets
`disableRelation` to `true`, making it fail the filter. -/
def filteredDocOff : Document :=
  ⟨"filtered-relation", DocID.str "f1",
    [("name", Value.str "name"), ("disableRelation", Value.boolV true)]⟩

/-- Example numeric-id relation document. -/
def customNumDoc : Document :=
  ⟨"custom-id-number", DocID.num 7700, [("name", Value.str "custom-id-number")]⟩

/-- Example post referencing every example relation. -/
def postDoc : Document :=
  ⟨"posts", DocID.str "p1",
    [("title", Value.str "title"),
     ("relationField", Value.ref (DocID.str "rel1")),
     ("maxDepthRelation", Value.ref (DocID.str "rel1")),
     ("chainedRelation", Value.ref (DocID.str "c1")),
     ("defaultAccessRelation", Value.ref (DocID.str "sa1")),
     ("filteredRelation", Value.ref (DocID.str "f1")),
     ("customIdNumberRelation", Value.ref (DocID.num 7700))]⟩

/-- Example store before the external mutation of the filtered relation. -/
def storeEx : Store :=
  [postDoc, relDoc, strictDoc, chained1Doc, chained2Doc, chained3Doc,
   filteredDocOk, customNumDoc]

/-- Example store after the external mutation of the filtered relation. -/
def storeExOff : Store :=
  [postDoc, relDoc, strictDoc, chained1Doc, chained2Doc, chained3Doc,
   filteredDocOff, customNumDoc]

/-- Whether an identifier value matches a declared identifier type. -/
def idMatches : IdType → DocID → Bool
  | IdType.str, DocID.str _ => true
  | IdType.num, DocID.num _ => true
  | _, _ => false

/-- A store is well typed when every stored document's identifier matches
its collection's declared identifier type. -/
def wellTypedStore (cfg : Config) (store : Store) : Bool :=
  store.all (fun d =>
    match idTypeOf cfg d.collection with
    | none => true
    | some it => idMatches it d.id)

/-- The output document claim C4 asserts for `populate(A, 2, identity)` on
the example chain: chain1 with its relation populated to chain2 and
chain2's relation left as the raw identifier of chain3. -/
def c4ClaimedDoc : Document :=
  ⟨"chained", DocID.str "c1",
    [("name", Value.str "chain1"),
     ("relation", Value.doc "chained" (DocID.str "c2")
       [("name", Value.str "chain2"),
        ("relation", Value.ref (DocID.str "c3"))])]⟩

/-- The output document the populate engine produces for
`populate(A, 2, identity)` on the example chain: chain1 with its relation
populated to chain2 at depth 1, chain2's relation populated to the depth-0
chain3, and chain3's own relation (pointing back to chain1) left raw. -/
def c4ActualDoc : Document :=
  ⟨"chained", DocID.str "c1",
    [("name", Value.str "chain1"),
     ("relation", Value.doc "chained" (DocID.str "c2")
       [("name", Value.str "chain2"),
        ("relation", Value.doc "chained" (DocID.str "c3")
          [("name", Value.str "chain3"),
           ("relation", Value.ref (DocID.str "c1"))])])]⟩

theorem effectiveDepth_le (depth : Nat) (mx : Option Nat) :
    effectiveDepth depth mx ≤ depth := by
  cases mx with
  | none => exact Nat.le_refl _
  | some m => exact Nat.min_le_left _ _

theorem effectiveDepth_zero (mx : Option Nat) : effectiveDepth 0 mx = 0 := by
  cases mx with
  | none => rfl
  | some m => exact Nat.zero_min m

theorem populateF_irrel (cfg : Config) (store : Store) (ident : Identity) :
    ∀ depth f1 f2 d, depth ≤ f1 → depth ≤ f2 →
      populateF cfg store ident f1 depth d = populateF cfg store ident f2 depth d := by
  intro depth
  induction depth using Nat.strong_induction_on with
  | _ depth ih =>
    intro f1 f2 d h1 h2
    cases depth with
    | zero => cases f1 <;> cases f2 <;> rfl
    | succ n =>
      cases f1 with
      | zero => omega
      | succ a =>
        cases f2 with
        | zero => omega
        | succ b =>
          simp only [populateF, Nat.succ_ne_zero, if_false]
          congr 1
          apply List.map_congr_left
          intro fv _
          obtain ⟨fn, v⟩ := fv
          cases v with
          | str s => rfl
          | num m => rfl
          | boolV bb => rfl
          | doc c j fs => rfl
          | ref i =>
            cases hrc : relCfgOf cfg d.collection fn with
            | none => simp [hrc]
            | some rc =>
              simp only [hrc]
              by_cases he : effectiveDepth (n+1) rc.maxDepth = 0
              · simp [he]
              · simp only [he, if_false]
                cases hres : resolve cfg store rc.relationTo i ident with
                | none => rfl
                | some d2 =>
                  have hle := effectiveDepth_le (n+1) rc.maxDepth
                  have : populateF cfg store ident a
                      (effectiveDepth (n+1) rc.maxDepth - 1) d2 =
                      populateF cfg store ident b
                      (effectiveDepth (n+1) rc.maxDepth - 1) d2 :=
                    ih _ (by omega) _ _ _ (by omega) (by omega)
                  simp [this]

theorem populate_zero (cfg : Config) (store : Store) (ident : Identity) (d : Document) :
    populate cfg store ident d 0 = d := by
  cases d
  rfl

theorem populate_succ (cfg : Config) (store : Store) (ident : Identity)
    (d : Document) (n : Nat) :
    populate cfg store ident d (n+1) =
      { d with fields := d.fields.map (fun fv =>
          (fv.1, popFieldVal cfg store ident d.collection fv.1 (n+1) fv.2)) } := by
  show populateF cfg store ident (n+1) (n+1) d = _
  simp only [populateF, Nat.succ_ne_zero, if_false]
  congr 1
  apply List.map_congr_left
  intro fv _
  obtain ⟨fn, v⟩ := fv
  cases v with
  | str s => rfl
  | num m => rfl
  | boolV bb => rfl
  | doc c j fs => rfl
  | ref i =>
    cases hrc : relCfgOf cfg d.collection fn with
    | none => simp [popFieldVal, hrc]
    | some rc =>
      simp only [popFieldVal, hrc]
      by_cases he : effectiveDepth (n+1) rc.maxDepth = 0
      · simp [he]
      · simp only [he, if_false]
        cases hres : resolve cfg store rc.relationTo i ident with
        | none => rfl
        | some d2 =>
          have hle := effectiveDepth_le (n+1) rc.maxDepth
          have : populateF cfg store ident n
              (effectiveDepth (n+1) rc.maxDepth - 1) d2 =
              populate cfg store ident d2 (effectiveDepth (n+1) rc.maxDepth - 1) :=
            populateF_irrel cfg store ident _ _ _ _ (by omega) (by omega)
          simp [this]

theorem popFieldVal_zero (cfg : Config) (store : Store) (ident : Identity)
    (coll fname : String) (v : Value) :
    popFieldVal cfg store ident coll fname 0 v = v := by
  cases v with
  | str s => rfl
  | num m => rfl
  | boolV bb => rfl
  | doc c j fs => rfl
  | ref i =>
    cases hrc : relCfgOf cfg coll fname with
    | none => simp [popFieldVal, hrc]
    | some rc => simp [popFieldVal, hrc, effectiveDepth_zero]

theorem find?_name_map (l : List (String × Value)) (h : String → Value → Value)
    (fname : String) :
    (l.map (fun fv => (fv.1, h fv.1 fv.2))).find? (fun fv => fv.1 == fname) =
      (l.find? (fun fv => fv.1 == fname)).map (fun fv => (fv.1, h fv.1 fv.2)) := by
  induction l with
  | nil => rfl
  | cons a t ih =>
    simp only [List.map_cons, List.find?_cons]
    by_cases ha : (a.1 == fname) = true
    · simp [ha]
    · simp [ha, ih]

theorem getField_populate (cfg : Config) (store : Store) (ident : Identity)
    (d : Document) (fname : String) (N : Nat) :
    getField (populate cfg store ident d N) fname =
      (getField d fname).map (popFieldVal cfg store ident d.collection fname N) := by
  cases N with
  | zero =>
    rw [populate_zero]
    cases hv : getField d fname with
    | none => rfl
    | some v => simp [popFieldVal_zero]
  | succ n =>
    rw [populate_succ]
    show ((d.fields.map _).find? _).map Prod.snd = _
    rw [find?_name_map d.fields
      (fun a b => popFieldVal cfg store ident d.collection a (n+1) b) fname]
    cases hf : d.fields.find? (fun fv => fv.1 == fname) with
    | none => simp [getField, hf]
    | some fv =>
      have hp := List.find?_some hf
      have hname : fv.1 = fname := by simpa using hp
      simp [getField, hf, hname]

theorem populate_collection (cfg : Config) (store : Store) (ident : Identity)
    (d : Document) (N : Nat) :
    (populate cfg store ident d N).collection = d.collection := by
  cases N with
  | zero => rw [populate_zero]
  | succ n => rw [populate_succ]

theorem populate_id (cfg : Config) (store : Store) (ident : Identity)
    (d : Document) (N : Nat) :
    (populate cfg store ident d N).id = d.id := by
  cases N with
  | zero => rw [populate_zero]
  | succ n => rw [populate_succ]

theorem resolve_none_of_denied (cfg : Config) (store : Store) (ident : Identity)
    (coll : String) (i : DocID) (h : (evaluate cfg ident coll).permitted = false) :
    resolve cfg store coll i ident = none := by
  simp [resolve, h]

theorem fetchByID_mem (store : Store) (coll : String) (i : DocID)
    (flt : Option DocFilter) (d2 : Document)
    (h : fetchByID store coll i flt = some d2) :
    d2 ∈ store ∧ d2.collection = coll ∧ d2.id = i := by
  have hm := List.mem_of_find?_eq_some h
  have hp := List.find?_some h
  simp only [Bool.and_eq_true, beq_iff_eq] at hp
  exact ⟨hm, hp.1.1, hp.1.2⟩

theorem resolve_mem (cfg : Config) (store : Store) (ident : Identity)
    (coll : String) (i : DocID) (d2 : Document)
    (h : resolve cfg store coll i ident = some d2) :
    d2 ∈ store ∧ d2.collection = coll ∧ d2.id = i := by
  by_cases hperm : (evaluate cfg ident coll).permitted
  · rw [resolve, if_pos hperm] at h
    exact fetchByID_mem _ _ _ _ _ h
  · rw [resolve, if_neg hperm] at h
    exact absurd h (by simp)

theorem fetchByID_some_filter (store : Store) (coll : String) (i : DocID)
    (w : DocFilter) (dR : Document)
    (h : fetchByID store coll i (some w) = some dR) : w dR = true := by
  have hp := List.find?_some h
  simp only [Bool.and_eq_true, beq_iff_eq, applyFilter] at hp
  exact hp.2

theorem fetchByID_none_of_filter_fails (store : Store) (coll : String) (i : DocID)
    (w : DocFilter)
    (h : ∀ dd ∈ store, dd.collection = coll → dd.id = i → w dd = false) :
    fetchByID store coll i (some w) = none := by
  apply List.find?_eq_none.mpr
  intro x hx
  simp only [Bool.and_eq_true, beq_iff_eq, applyFilter, not_and]
  intro hxc hxi
  exact absurd hxi (by simp [h x hx hxc.1 hxc.2])

theorem popFieldVal_ref_eq_popRefAt (cfg : Config) (store : Store) (ident : Identity)
    (coll fname targetColl : String) (mx : Option Nat) (i : DocID) (depth : Nat)
    (h : relCfgOf cfg coll fname = some ⟨targetColl, mx⟩) :
    popFieldVal cfg store ident coll fname depth (Value.ref i) =
      popRefAt cfg store ident targetColl i (effectiveDepth depth mx) := by
  simp only [popFieldVal, h]
  cases he : effectiveDepth depth mx with
  | zero => simp [he, popRefAt]
  | succ e =>
    simp only [he, Nat.succ_ne_zero, if_false]
    cases hres : resolve cfg store targetColl i ident with
    | none => simp [popRefAt, hres]
    | some d2 => simp [popRefAt, hres]

theorem popFieldVal_shape (cfg : Config) (store : Store) (ident : Identity)
    (coll fname : String) (depth : Nat) (v : Value) :
    ((∀ i, v ≠ Value.ref i) → popFieldVal cfg store ident coll fname depth v = v) ∧
    (∀ i, v = Value.ref i →
      (popFieldVal cfg store ident coll fname depth v = Value.ref i ∨
       ∃ c j fs, popFieldVal cfg store ident coll fname depth v = Value.doc c j fs)) := by
  constructor
  · intro hne
    cases v with
    | str s => rfl
    | num m => rfl
    | boolV bb => rfl
    | doc c j fs => rfl
    | ref i => exact absurd rfl (hne i)
  · intro i hv
    subst hv
    cases hrc : relCfgOf cfg coll fname with
    | none => left; simp [popFieldVal, hrc]
    | some rc =>
      rw [popFieldVal_ref_eq_popRefAt cfg store ident coll fname
        rc.relationTo rc.maxDepth i depth (by rw [hrc])]
      cases he : effectiveDepth depth rc.maxDepth with
      | zero => left; rfl
      | succ e =>
        cases hres : resolve cfg store rc.relationTo i ident with
        | none => left; simp [popRefAt, hres]
        | some d2 =>
          right
          refine ⟨(populate cfg store ident d2 e).collection,
            (populate cfg store ident d2 e).id,
            (populate cfg store ident d2 e).fields, ?_⟩
          simp [popRefAt, hres, docValue]

/-- Claim C1: for every configuration, store, identity and document,
populate at request depth 0 returns the document unchanged — every
relationship field keeps its stored raw identifier — and attempts zero
storage fetches; the depth-0 case is decided before any recursion. -/
theorem c1_depth_zero_no_fetch (cfg : Config) (store : Store) (ident : Identity)
    (d : Document) :
    populate cfg store ident d 0 = d ∧ populateFetches cfg store ident d 0 = 0 :=
  ⟨populate_zero cfg store ident d, rfl⟩

/-- Claim C10: hasWhereAccessResult returns true exactly when its argument
is a Where filter object, and returns false on both boolean values, so an
unconditional grant is never classified as a conditional where-filter. -/
theorem c10_hasWhereAccessResult_iff_where :
    ∀ r : AccessResult,
      (hasWhereAccessResult r = true ↔ ∃ w, r = AccessResult.whereFilter w) ∧
      hasWhereAccessResult (AccessResult.boolean true) = false ∧
      hasWhereAccessResult (AccessResult.boolean false) = false := by
  intro r
  refine ⟨?_, rfl, rfl⟩
  cases r with
  | boolean b => simp [hasWhereAccessResult, jsTruthy, jsTypeofObject]
  | whereFilter w => exact ⟨fun _ => ⟨w, rfl⟩, fun _ => rfl⟩

/-- Claim C9: the Access Evaluator is a pure function of the identity and
the collection's configuration — two configurations agreeing on the
collection's entry yield the same decision, so repeated evaluations within
a request are stable — and a collection configured without an access
restriction yields the unconditional true decision. -/
theorem c9_evaluate_stable_and_default (cfg cfg2 : Config) (ident : Identity)
    (coll : String) :
    (findColl cfg coll = findColl cfg2 coll →
      evaluate cfg ident coll = evaluate cfg2 ident coll) ∧
    (∀ c, findColl cfg coll = some c → c.access = none →
      evaluate cfg ident coll = ⟨true, none⟩) := by
  constructor
  · intro h
    unfold evaluate
    rw [h]
  · intro c hf ha
    simp [evaluate, hf, ha]

/-- Witness for claim C9 at the example configuration's unrestricted
`relation` collection. -/
theorem c9_witness :
    evaluate cfgEx none "relation" = evaluate cfgEx none "relation" ∧
    evaluate cfgEx none "relation" = ⟨true, none⟩ :=
  ⟨(c9_evaluate_stable_and_default cfgEx cfgEx none "relation").1 rfl,
   (c9_evaluate_stable_and_default cfgEx cfgEx none "relation").2
     ⟨"relation", IdType.str, none, []⟩ rfl rfl⟩

/-- Claim C8: population never mutates the input record — it produces a
derived document with the same collection, the same identifier and exactly
the same field names in the same positions; non-relationship values are
copied verbatim, and a stored relationship identifier either stays the raw
identifier or becomes a populated sub-document. -/
theorem c8_shape_preserved (cfg : Config) (store : Store) (ident : Identity)
    (d : Document) (N : Nat) :
    (populate cfg store ident d N).collection = d.collection ∧
    (populate cfg store ident d N).id = d.id ∧
    (populate cfg store ident d N).fields.map Prod.fst = d.fields.map Prod.fst ∧
    ∀ (k : Nat) (fname : String) (v : Value), d.fields[k]? = some (fname, v) →
      ∃ v2 : Value, (populate cfg store ident d N).fields[k]? = some (fname, v2) ∧
        ((∀ i, v ≠ Value.ref i) → v2 = v) ∧
        (∀ i, v = Value.ref i →
          (v2 = Value.ref i ∨ ∃ c j fs, v2 = Value.doc c j fs)) := by
  refine ⟨populate_collection cfg store ident d N, populate_id cfg store ident d N,
    ?_, ?_⟩
  · cases N with
    | zero => rw [populate_zero]
    | succ n =>
      rw [populate_succ]
      show (d.fields.map _).map Prod.fst = _
      rw [List.map_map]
      exact List.map_congr_left (fun fv _ => rfl)
  · intro k fname v hk
    cases N with
    | zero =>
      rw [populate_zero]
      exact ⟨v, hk, fun _ => rfl, fun i hv =>
        Or.inl (by rw [hv])⟩
    | succ n =>
      rw [populate_succ]
      refine ⟨popFieldVal cfg store ident d.collection fname (n+1) v, ?_, ?_, ?_⟩
      · show (d.fields.map (fun fv =>
          (fv.1, popFieldVal cfg store ident d.collection fv.1 (n+1) fv.2)))[k]? = _
        rw [List.getElem?_map, hk]
        rfl
      · exact (popFieldVal_shape cfg store ident d.collection fname (n+1) v).1
      · exact (popFieldVal_shape cfg store ident d.collection fname (n+1) v).2

/-- Witness for claim C8 at the example post, request depth 1, field 0
(the non-relationship `title` field). -/
theorem c8_witness :
    ∃ v2, (populate cfgEx storeEx none postDoc 1).fields[0]? =
        some ("title", v2) ∧
      ((∀ i, Value.str "title" ≠ Value.ref i) → v2 = Value.str "title") ∧
      (∀ i, Value.str "title" = Value.ref i →
        (v2 = Value.ref i ∨ ∃ c j fs, v2 = Value.doc c j fs)) :=
  (c8_shape_preserved cfgEx storeEx none postDoc 1).2.2.2 0 "title"
    (Value.str "title") rfl

/-- Claim C2: at request depth N ≥ 1, a relationship field declaring a
field-level maximum depth m is populated exactly as a reference at
effective depth min(N, m), while a sibling relationship field without a
declared maximum is populated as a reference at effective depth N — the
cap applies only to the capped field's own branch. -/
theorem c2_field_max_depth (cfg : Config) (store : Store) (ident : Identity)
    (d : Document) (f g targetC siblingC : String) (m : Nat) (i j : DocID)
    (N : Nat) (hN : 1 ≤ N)
    (hf : relCfgOf cfg d.collection f = some ⟨targetC, some m⟩)
    (hfv : getField d f = some (Value.ref i))
    (hg : relCfgOf cfg d.collection g = some ⟨siblingC, none⟩)
    (hgv : getField d g = some (Value.ref j)) :
    getField (populate cfg store ident d N) f =
      some (popRefAt cfg store ident targetC i (min N m)) ∧
    getField (populate cfg store ident d N) g =
      some (popRefAt cfg store ident siblingC j N) := by
  constructor
  · rw [getField_populate, hfv]
    rw [Option.map_some']
    rw [popFieldVal_ref_eq_popRefAt cfg store ident d.collection f
      targetC (some m) i N hf]
    rfl
  · rw [getField_populate, hgv]
    rw [Option.map_some']
    rw [popFieldVal_ref_eq_popRefAt cfg store ident d.collection g
      siblingC none j N hg]
    rfl

/-- Witness for claim C2 at the example post with request depth 1: the
`maxDepthRelation` field (field-level max 0) stays the raw identifier while
its uncapped sibling `relationField`, referencing the same document, is
populated. -/
theorem c2_witness :
    (getField (populate cfgEx storeEx none postDoc 1) "maxDepthRelation" =
        some (popRefAt cfgEx storeEx none "relation" (DocID.str "rel1") (min 1 0)) ∧
      getField (populate cfgEx storeEx none postDoc 1) "relationField" =
        some (popRefAt cfgEx storeEx none "relation" (DocID.str "rel1") 1)) ∧
    popRefAt cfgEx storeEx none "relation" (DocID.str "rel1") (min 1 0) =
      Value.ref (DocID.str "rel1") ∧
    popRefAt cfgEx storeEx none "relation" (DocID.str "rel1") 1 =
      docValue relDoc :=
  ⟨c2_field_max_depth cfgEx storeEx none postDoc "maxDepthRelation"
      "relationField" "relation" "relation" 0 (DocID.str "rel1")
      (DocID.str "rel1") 1 (by decide) rfl rfl rfl rfl,
   rfl, rfl⟩

/-- Claim C3: when the Access Evaluator denies (identity, targetColl), any
field referencing targetColl keeps its stored raw identifier at every
request depth, and populating a document whose only field is such a
reference attempts zero storage fetches; population still returns a
document (no error is surfaced). -/
theorem c3_denied_access_raw_id (cfg : Config) (store : Store) (ident : Identity)
    (targetColl coll f : String) (mx : Option Nat)
    (hdeny : (evaluate cfg ident targetColl).permitted = false)
    (hf : relCfgOf cfg coll f = some ⟨targetColl, mx⟩) :
    (∀ (d : Document) (i : DocID) (N : Nat), d.collection = coll →
      getField d f = some (Value.ref i) →
      getField (populate cfg store ident d N) f = some (Value.ref i)) ∧
    (∀ (did : DocID) (i : DocID) (N : Nat),
      populateFetches cfg store ident ⟨coll, did, [(f, Value.ref i)]⟩ N = 0) := by
  have hres : ∀ i, resolve cfg store targetColl i ident = none := fun i =>
    resolve_none_of_denied cfg store ident targetColl i hdeny
  constructor
  · intro d i N hdc hfv
    rw [getField_populate, hfv, Option.map_some']
    rw [← hdc] at hf
    rw [popFieldVal_ref_eq_popRefAt cfg store ident d.collection f targetColl mx i N hf]
    cases he : effectiveDepth N mx with
    | zero => rfl
    | succ e => simp [popRefAt, hres]
  · intro did i N
    cases N with
    | zero => rfl
    | succ n =>
      show populateFetchesF cfg store ident (n+1) (n+1) ⟨coll, did, _⟩ = 0
      simp only [populateFetchesF, Nat.succ_ne_zero, if_false, List.map_cons,
        List.map_nil, List.sum_cons, List.sum_nil]
      rw [hf]
      by_cases he : effectiveDepth (n+1) mx = 0
      · simp [he]
      · simp [he, hres, resolveFetches, hdeny]

/-- Witness for claim C3: the anonymous identity is denied on the example
`strict-access` collection, so the post's `defaultAccessRelation` field
stays the raw identifier at depth 2 and a single-field document referencing
it is populated with zero fetches. -/
theorem c3_witness :
    getField (populate cfgEx storeEx none postDoc 2) "defaultAccessRelation" =
      some (Value.ref (DocID.str "sa1")) ∧
    populateFetches cfgEx storeEx none
      ⟨"posts", DocID.str "p9", [("defaultAccessRelation", Value.ref (DocID.str "sa1"))]⟩
      3 = 0 :=
  ⟨(c3_denied_access_raw_id cfgEx storeEx none "strict-access" "posts"
      "defaultAccessRelation" none rfl rfl).1 postDoc (DocID.str "sa1") 2 rfl rfl,
   (c3_denied_access_raw_id cfgEx storeEx none "strict-access" "posts"
      "defaultAccessRelation" none rfl rfl).2 (DocID.str "p9") (DocID.str "sa1") 3⟩

/-- Claim C5: populate terminates by depth exhaustion alone (it is a total
function, with no visited-set in its state), and along any resolved chain
of k uncapped relationship hops with k ≤ N, the k-th recursively populated
document is populated at depth exactly N - k; this holds for cyclic stores
as well, since nothing prevents a chain from revisiting a document. -/
theorem c5_chain_depth (cfg : Config) (store : Store) (ident : Identity) :
    ∀ (chain : List (String × Document)) (d : Document) (N : Nat),
      resolvedChain cfg store ident d chain → chain.length ≤ N →
      nestedAt (populate cfg store ident d N) (chain.map Prod.fst) =
        some (populate cfg store ident (lastDoc d chain) (N - chain.length)) := by
  intro chain
  induction chain with
  | nil =>
    intro d N _ _
    simp [nestedAt, lastDoc]
  | cons step rest ih =>
    obtain ⟨f, dNext⟩ := step
    intro d N hchain hlen
    obtain ⟨⟨i, targetC, hfv, hrc, hres⟩, hrest⟩ := hchain
    obtain ⟨n, rfl⟩ : ∃ n, N = n + 1 :=
      ⟨N - 1, by simp at hlen; omega⟩
    have hfield : getField (populate cfg store ident d (n+1)) f =
        some (docValue (populate cfg store ident dNext n)) := by
      rw [getField_populate, hfv, Option.map_some']
      rw [popFieldVal_ref_eq_popRefAt cfg store ident d.collection f
        targetC none i (n+1) hrc]
      show some (popRefAt cfg store ident targetC i (n+1)) = _
      simp [popRefAt, hres]
    show nestedAt _ (f :: rest.map Prod.fst) = _
    simp only [nestedAt, hfield, docValue]
    have hlen2 : rest.length ≤ n := by simp at hlen; omega
    simp only [lastDoc, List.length_cons, Nat.succ_sub_succ]
    exact ih dNext n hrest hlen2

/-- Witness for claim C5: the example chain c1 → c2 → c3 inside a cyclic
store (c3 points back to c1), request depth 2: the second nested document
is chain3 populated at depth 2 - 2 = 0. -/
theorem c5_witness :
    nestedAt (populate cfgEx storeEx none chained1Doc 2) ["relation", "relation"] =
      some (populate cfgEx storeEx none chained3Doc 0) :=
  c5_chain_depth cfgEx storeEx none
    [("relation", chained2Doc), ("relation", chained3Doc)] chained1Doc 2
    ⟨⟨DocID.str "c2", "chained", rfl, rfl, rfl⟩,
     ⟨DocID.str "c3", "chained", rfl, rfl, rfl⟩, trivial⟩
    (by decide)

/-- Claim C6: for a relationship field whose target collection's access
rule yields a Where filter for the requesting identity, a fresh populate
call expands the field exactly when the filtered lookup succeeds: against a
store where the lookup (with the filter as a precondition) finds the
referenced document, the document satisfies the filter and the field is
populated; against a store where every document at that (collection, id)
fails the filter — e.g. after an external mutation — the field stays the
raw identifier. The outcome depends only on the store passed to the call,
not on any previous population. -/
theorem c6_filtered_relation (cfg : Config) (ident : Identity)
    (targetColl f : String) (rule : Identity → AccessResult) (w : DocFilter)
    (cc : CollectionCfg) (d : Document) (i : DocID) (N : Nat)
    (hN : 1 ≤ N)
    (hcoll : findColl cfg targetColl = some cc)
    (hacc : cc.access = some rule)
    (hrule : rule ident = AccessResult.whereFilter w)
    (hf : relCfgOf cfg d.collection f = some ⟨targetColl, none⟩)
    (hfv : getField d f = some (Value.ref i)) :
    (∀ (store : Store) (dR : Document),
      fetchByID store targetColl i (some w) = some dR →
      w dR = true ∧
      getField (populate cfg store ident d N) f =
        some (docValue (populate cfg store ident dR (N - 1)))) ∧
    (∀ store : Store,
      (∀ dd ∈ store, dd.collection = targetColl → dd.id = i → w dd = false) →
      getField (populate cfg store ident d N) f = some (Value.ref i)) := by
  have heval : evaluate cfg ident targetColl = ⟨true, some w⟩ := by
    simp [evaluate, hcoll, hacc, hrule]
  have hresolve : ∀ store : Store, resolve cfg store targetColl i ident =
      fetchByID store targetColl i (some w) := by
    intro store
    rw [resolve, heval]
    rfl
  obtain ⟨n, rfl⟩ : ∃ n, N = n + 1 := ⟨N - 1, by omega⟩
  constructor
  · intro store dR hfetch
    refine ⟨fetchByID_some_filter store targetColl i w dR hfetch, ?_⟩
    rw [getField_populate, hfv, Option.map_some']
    rw [popFieldVal_ref_eq_popRefAt cfg store ident d.collection f
      targetColl none i (n+1) hf]
    show some (popRefAt cfg store ident targetColl i (n+1)) = _
    rw [show popRefAt cfg store ident targetColl i (n+1) =
      (match resolve cfg store targetColl i ident with
       | none => Value.ref i
       | some d2 => docValue (populate cfg store ident d2 n)) from rfl]
    rw [hresolve store, hfetch]
    simp
  · intro store hfail
    have hnone : fetchByID store targetColl i (some w) = none :=
      fetchByID_none_of_filter_fails store targetColl i w hfail
    rw [getField_populate, hfv, Option.map_some']
    rw [popFieldVal_ref_eq_popRefAt cfg store ident d.collection f
      targetColl none i (n+1) hf]
    show some (popRefAt cfg store ident targetColl i (n+1)) = _
    rw [show popRefAt cfg store ident targetColl i (n+1) =
      (match resolve cfg store targetColl i ident with
       | none => Value.ref i
       | some d2 => docValue (populate cfg store ident d2 n)) from rfl]
    rw [hresolve store, hnone]

/-- Witness for claim C6: the example post's `filteredRelation` field is
populated against the store where `disableRelation` is false and stays the
raw identifier against the store where the external mutation set it to
true. -/
theorem c6_witness :
    (relationFilter filteredDocOk = true ∧
      getField (populate cfgEx storeEx none postDoc 1) "filteredRelation" =
        some (docValue (populate cfgEx storeEx none filteredDocOk 0))) ∧
    getField (populate cfgEx storeExOff none postDoc 1) "filteredRelation" =
      some (Value.ref (DocID.str "f1")) :=
  ⟨(c6_filtered_relation cfgEx none "filtered-relation" "filteredRelation"
      (fun _ => AccessResult.whereFilter relationFilter) relationFilter
      ⟨"filtered-relation", IdType.str,
        some (fun _ => AccessResult.whereFilter relationFilter), []⟩
      postDoc (DocID.str "f1") 1 (by decide) rfl rfl rfl rfl rfl).1
      storeEx filteredDocOk rfl,
   (c6_filtered_relation cfgEx none "filtered-relation" "filteredRelation"
      (fun _ => AccessResult.whereFilter relationFilter) relationFilter
      ⟨"filtered-relation", IdType.str,
        some (fun _ => AccessResult.whereFilter relationFilter), []⟩
      postDoc (DocID.str "f1") 1 (by decide) rfl rfl rfl rfl rfl).2
      storeExOff (by decide)⟩

/-- Claim C7: in a well-typed store, resolving a reference into a
collection whose declared identifier type is numeric always yields a
populated sub-document whose identifier is numeric (never a string
coercion) and whose collection is the declared target; population
preserves the stored identifier, so the type is fixed across requests. -/
theorem c7_numeric_id_preserved (cfg : Config) (store : Store) (ident : Identity)
    (d : Document) (f targetColl : String) (mx : Option Nat) (i : DocID) (N : Nat)
    (c2 : String) (j : DocID) (fs : List (String × Value))
    (hwt : wellTypedStore cfg store = true)
    (hf : relCfgOf cfg d.collection f = some ⟨targetColl, mx⟩)
    (hnum : idTypeOf cfg targetColl = some IdType.num)
    (hfv : getField d f = some (Value.ref i))
    (hpop : getField (populate cfg store ident d N) f = some (Value.doc c2 j fs)) :
    ∃ n : Int, j = DocID.num n ∧ c2 = targetColl := by
  rw [getField_populate, hfv, Option.map_some'] at hpop
  rw [popFieldVal_ref_eq_popRefAt cfg store ident d.collection f
    targetColl mx i N hf] at hpop
  cases he : effectiveDepth N mx with
  | zero =>
    rw [he] at hpop
    exact absurd hpop (by simp [popRefAt])
  | succ e =>
    rw [he] at hpop
    cases hres : resolve cfg store targetColl i ident with
    | none =>
      rw [show popRefAt cfg store ident targetColl i (e+1) =
        (match resolve cfg store targetColl i ident with
         | none => Value.ref i
         | some d2 => docValue (populate cfg store ident d2 e)) from rfl,
        hres] at hpop
      exact absurd hpop (by simp)
    | some d2 =>
      rw [show popRefAt cfg store ident targetColl i (e+1) =
        (match resolve cfg store targetColl i ident with
         | none => Value.ref i
         | some d2 => docValue (populate cfg store ident d2 e)) from rfl,
        hres] at hpop
      simp only [docValue, Option.some.injEq, Value.doc.injEq] at hpop
      obtain ⟨hc, hj, _⟩ := hpop
      have hmem := resolve_mem cfg store ident targetColl i d2 hres
      have hall := List.all_eq_true.mp hwt d2 hmem.1
      rw [hmem.2.1, hnum] at hall
      rw [← hj, populate_id]
      rw [← hc, populate_collection, hmem.2.1]
      cases hid : d2.id with
      | str s =>
        rw [hid] at hall
        exact absurd hall (by simp [idMatches])
      | num nn => exact ⟨nn, rfl, rfl⟩

/-- Witness for claim C7 at the example post's numeric-id relation. -/
theorem c7_witness :
    ∃ n : Int, DocID.num 7700 = DocID.num n ∧
      "custom-id-number" = "custom-id-number" :=
  c7_numeric_id_preserved cfgEx storeEx none postDoc "customIdNumberRelation"
    "custom-id-number" none (DocID.num 7700) 1 "custom-id-number"
    (DocID.num 7700) [("name", Value.str "custom-id-number")]
    (by decide) rfl rfl rfl rfl

/-- Counterexample to claim C4: on the example chain c1 → c2 → c3 (with c3
pointing back to c1), populate at depth 2 does not return the document the
claim describes — chain2's relation is not left as chain3's raw identifier
but is populated to the depth-0 chain3 document. -/
theorem c4_counterexample :
    populate cfgEx storeEx none chained1Doc 2 ≠ c4ClaimedDoc := by
  have h : populate cfgEx storeEx none chained1Doc 2 = c4ActualDoc := rfl
  rw [h]
  simp [c4ActualDoc, c4ClaimedDoc]

/-- Claim C4 as amended: for the chain A → B → C and request depth 2,
populate(A, 2, identity) returns A with its relation populated to B
(populated at depth 1), B's relation populated to the depth-0 document C,
and C's own relation left as a raw identifier — no depth-3 expansion of
C's relation, for every identity. -/
theorem c4_amended_chain_depth2 (ident : Identity) :
    populate cfgEx storeEx ident chained1Doc 2 = c4ActualDoc := rfl
